import Mathlib

/-!
Verification of the OCR income-verification service: embedding of the
salary-slip / bank-statement field extractors (`utils/ocr_parser.go`),
the document-processing cascade and the cross-verification engine
(`service/income_service.go`), together with proofs of the claims of the spec.

Modelling conventions:
* Go strings are modelled as `List Char` (`Str`); `len(s)` on a Go string
  counts UTF-8 bytes and is modelled by `utf8Len`.
* Go `float64` values are modelled as rationals (`ℚ`).  Every arithmetic
  operation on the verified code paths (threshold comparisons, exact
  equality of amounts parsed from short decimal literals, averages of
  integer scores) is exact on the values involved, so no rounding
  behaviour of binary floating point is observable there.
* Character predicates (`unicode.IsSpace`, `ToLower`, …) are modelled on
  the ASCII range plus the Latin-1 spaces, which covers all characters
  appearing in the inputs of the claims.
-/

set_option maxRecDepth 4000

attribute [local semireducible] Rat.add Rat.mul Rat.inv Rat.sub Rat.ofScientific

namespace OcrIncome

abbrev Str := List Char

def gs (s : String) : Str := s.toList

/-- Go `len` on a string counts UTF-8 bytes. -/
def utf8Len (s : Str) : Nat := (s.map (fun c => c.utf8Size)).sum

/-- Function `unicode.IsSpace` (ASCII whitespace plus NEL and NBSP). -/
def goIsSpace (c : Char) : Bool :=
  c == ' ' || c == '\t' || c == '\n' || c == '\x0b' || c == '\x0c' || c == '\r' ||
  c == '\x85' || c == '\xa0'

/-- Function `strings.ToLower` (ASCII letters; inputs in the claims are ASCII). -/
def goToLower (s : Str) : Str := s.map Char.toLower

/-- Function `strings.ToUpper` (ASCII letters). -/
def goToUpper (s : Str) : Str := s.map Char.toUpper

/-- Function `strings.TrimSpace`. -/
def goTrimSpace (s : Str) : Str :=
  ((s.dropWhile goIsSpace).reverse.dropWhile goIsSpace).reverse

/-- Function `strings.Trim(s, cutset)`. -/
def goTrimSet (cut : List Char) (s : Str) : Str :=
  ((s.dropWhile (fun c => cut.contains c)).reverse.dropWhile (fun c => cut.contains c)).reverse

/-- Function `strings.ReplaceAll(s, string(t), "")` for a single character `t`. -/
def removeChar (t : Char) (s : Str) : Str := s.filter (fun c => !(c == t))

/-- Function `strings.ReplaceAll(s, string(t), string(u))` for single characters. -/
def replaceChar (t u : Char) (s : Str) : Str := s.map (fun c => if c == t then u else c)

def goFieldsAux : Str → Str → List Str
  | [], cur => if cur.isEmpty then [] else [cur.reverse]
  | c :: rest, cur =>
    if goIsSpace c then
      if cur.isEmpty then goFieldsAux rest []
      else cur.reverse :: goFieldsAux rest []
    else goFieldsAux rest (c :: cur)

/-- Function `strings.Fields`: split around runs of whitespace. -/
def goFields (s : Str) : List Str := goFieldsAux s []

def goSplitAux (sep : Char) : Str → Str → List Str
  | [], cur => [cur.reverse]
  | c :: rest, cur =>
    if c == sep then cur.reverse :: goSplitAux sep rest []
    else goSplitAux sep rest (c :: cur)

/-- Function `strings.Split(s, string(sep))` for a one-character separator. -/
def goSplitChar (sep : Char) (s : Str) : List Str := goSplitAux sep s []

/-- Function `strings.HasPrefix`-style check: does `s` start with `p`? -/
def goStartsWith : Str → Str → Bool
  | _, [] => true
  | [], _ :: _ => false
  | c :: s, d :: p => c == d && goStartsWith s p

/-- Function `strings.Contains(s, sub)`. -/
def goContains : Str → Str → Bool
  | [], sub => goStartsWith [] sub
  | c :: t, sub => goStartsWith (c :: t) sub || goContains t sub

/-- Function `strings.HasSuffix(s, suf)`. -/
def goHasSuffixStr (s suf : Str) : Bool :=
  decide (suf.length ≤ s.length) && s.drop (s.length - suf.length) == suf

/-- Function `strings.TrimSuffix(s, suf)`. -/
def trimSuffixStr (s suf : Str) : Str :=
  if goHasSuffixStr s suf then s.take (s.length - suf.length) else s

/-- Function `strings.Join(xs, sep)`. -/
def goJoin (sep : Str) (xs : List Str) : Str := List.intercalate sep xs

-- ===========================================================
-- Data model (dto)
-- ===========================================================

/-- A calendar date (year, month, day); `Option` with `none` standing for
the zero `time.Time` of Go. -/
abbrev GoDate := Option (Nat × Nat × Nat)

structure DocumentQuality where
  resolutionScore : ℚ := 0
  ocrConfidence : ℚ := 0
  contrastScore : ℚ := 0
  finalScore : ℚ := 0
  issues : List Str := []
deriving Repr, DecidableEq

structure BankTransaction where
  date : GoDate := none
  description : Str := []
  amount : ℚ := 0
  isCredit : Bool := false
  balance : ℚ := 0
  rawLine : Str := []
deriving Repr, DecidableEq

structure SalarySlipData where
  employeeName : Str := []
  employerName : Str := []
  designation : Str := []
  department : Str := []
  joiningDate : GoDate := none
  payMonth : Str := []
  netSalary : ℚ := 0
  accountNumber : Str := []
  ifsc : Str := []
  quality : DocumentQuality := {}
deriving Repr, DecidableEq

structure BankStatementData where
  accountHolderName : Str := []
  accountNumber : Str := []
  bankName : Str := []
  ifsc : Str := []
  periodFrom : GoDate := none
  periodTo : GoDate := none
  transactions : List BankTransaction := []
  quality : DocumentQuality := {}
deriving Repr, DecidableEq

structure CrossCheckResult where
  nameMatch : Bool := false
  nameSimilarity : ℚ := 0
  accountMatch : Bool := false
  missingSalaryCredits : List Str := []
  notes : List Str := []
deriving Repr, DecidableEq

-- ===========================================================
-- A small regular-expression engine (leftmost, first-alternative
-- semantics with greedy quantifiers, as the Go regexp package produces
-- for the patterns below).  Each Go pattern is transliterated into an
-- `RE` value; repetition is only ever applied to character classes,
-- which is all the source patterns use.
-- ===========================================================

inductive RE where
  | nev
  | lit (cs : Str) (ci : Bool)
  | rep (p : Char → Bool) (lo : Nat) (hi : Option Nat)
  | cat (r1 r2 : RE)
  | alt (r1 r2 : RE)
  | opt (r : RE)
  | grp (n : Nat) (r : RE)

/-- Match a literal (case-insensitively when `ci`); returns the rest of the
input. -/
def litMatch (ci : Bool) : Str → Str → Option Str
  | [], s => some s
  | _ :: _, [] => none
  | p :: ps, c :: cs =>
    if (if ci then c.toLower == p.toLower else c == p) then litMatch ci ps cs else none

/-- Length of the maximal run of `p`-characters at the head of the input. -/
def maxRun (p : Char → Bool) : Str → Nat
  | [] => 0
  | c :: s => if p c then maxRun p s + 1 else 0

/-- Try `k` on the counts `lo + n, lo + n - 1, …, lo` in that order
(greedy backtracking for a quantifier). -/
def tryCountsDown {α : Type} (k : Nat → Option α) (lo : Nat) : Nat → Option α
  | 0 => k lo
  | n + 1 =>
    match k (lo + n + 1) with
    | some r => some r
    | none => tryCountsDown k lo n

/-- Backtracking matcher in continuation-passing style.  `caps` accumulates
`(group index, captured characters)` pairs of the successful path. -/
def mtch {α : Type} : RE → Str → List (Nat × Str) → (Str → List (Nat × Str) → Option α) →
    Option α
  | .nev, _, _, _ => none
  | .lit ps ci, s, caps, k =>
    match litMatch ci ps s with
    | some s2 => k s2 caps
    | none => none
  | .rep p lo hi, s, caps, k =>
    let m := match hi with
      | none => maxRun p s
      | some h => min (maxRun p s) h
    if m < lo then none
    else tryCountsDown (fun i => k (s.drop i) caps) lo (m - lo)
  | .cat r1 r2, s, caps, k => mtch r1 s caps (fun s2 caps2 => mtch r2 s2 caps2 k)
  | .alt r1 r2, s, caps, k =>
    match mtch r1 s caps k with
    | some res => some res
    | none => mtch r2 s caps k
  | .opt r, s, caps, k =>
    match mtch r s caps k with
    | some res => some res
    | none => k s caps
  | .grp n r, s, caps, k =>
    mtch r s caps (fun s2 caps2 => k s2 ((n, s.take (s.length - s2.length)) :: caps2))

/-- Class `\w` of Go regexp, for word boundaries. -/
def isWordChar (c : Char) : Bool := c.isAlphanum || c == '_'

/-- Attempt a match anchored at the current position; on success returns the
captures (group 0 is the whole match) and the remainder of the input. -/
def reFindAt (r : RE) (s : Str) : Option (List (Nat × Str) × Str) :=
  mtch r s [] (fun s2 caps => some ((0, s.take (s.length - s2.length)) :: caps, s2))

/-- Scan left to right for the leftmost match; `wb` demands a `\b` word
boundary at the start of the match, `prev` is the character before the
current position. -/
def reFindAux (r : RE) (wb : Bool) : Str → Option Char → Option (List (Nat × Str) × Str)
  | [], prev =>
    if !wb || (match prev with | none => true | some c => !isWordChar c) then reFindAt r []
    else none
  | c :: t, prev =>
    let ok := !wb || (match prev with | none => true | some d => !isWordChar d)
    match (if ok then reFindAt r (c :: t) else none) with
    | some res => some res
    | none => reFindAux r wb t (some c)

/-- Function `FindStringSubmatch` / `FindString`: leftmost match with captures. -/
def reFind (r : RE) (s : Str) : Option (List (Nat × Str) × Str) := reFindAux r false s none

/-- Like `reFind` but the pattern carries a leading `\b`. -/
def reFindWB (r : RE) (s : Str) : Option (List (Nat × Str) × Str) := reFindAux r true s none

def capGet (caps : List (Nat × Str)) (n : Nat) : Option Str :=
  (caps.find? (fun pc => pc.1 == n)).map (fun pc => pc.2)

def reFindAllAux (r : RE) : Str → Nat → List Str
  | _, 0 => []
  | s, fuel + 1 =>
    match reFind r s with
    | none => []
    | some (caps, rest) =>
      let w := (capGet caps 0).getD []
      if w.isEmpty then [] else w :: reFindAllAux r rest fuel

/-- Function `FindAllString(s, -1)`: successive non-overlapping leftmost matches (the
patterns used below cannot match the empty string). -/
def reFindAll (r : RE) (s : Str) : List Str := reFindAllAux r s (s.length + 1)

/-- n-ary concatenation, `[]` being the empty pattern. -/
def reCat (rs : List RE) : RE := rs.foldr RE.cat (RE.lit [] false)

/-- Ordered n-ary alternation (`nev` matches nothing, so the fold keeps
the order of the alternatives and adds no extra behaviour). -/
def reAlts (rs : List RE) : RE := rs.foldr RE.alt RE.nev

-- Character classes appearing in the source patterns.
def isDigitC (c : Char) : Bool := c.isDigit
def isAlphaC (c : Char) : Bool := c.isAlpha
/-- Class `\s` of Go regexp: `[\t\n\f\r ]`. -/
def reWS (c : Char) : Bool := c == '\t' || c == '\n' || c == '\x0c' || c == '\r' || c == ' '

def wsStar : RE := .rep reWS 0 none
/-- Pattern `[\s:]*` -/
def wsColonStar : RE := .rep (fun c => reWS c || c == ':') 0 none
/-- Pattern `[\s\-]*` -/
def wsDashStar : RE := .rep (fun c => reWS c || c == '-') 0 none

-- ===========================================================
-- strconv.ParseFloat (decimal forms)
-- ===========================================================

def digitVal (c : Char) : Nat := c.toNat - 48

def digitsToNat (ds : Str) : Nat := ds.foldl (fun n c => n * 10 + digitVal c) 0

def takeDigits (s : Str) : Str × Str := (s.takeWhile isDigitC, s.dropWhile isDigitC)

/-- The exact rational `mant * 10 ^ ex`. -/
def qOfMantExp (mant : Int) (ex : Int) : ℚ :=
  if 0 ≤ ex then ((mant * (10 : Int) ^ ex.toNat : Int) : ℚ)
  else mkRat mant ((10 : Nat) ^ (-ex).toNat)

/-- Function `strconv.ParseFloat(s, 64)`, modelled exactly over ℚ for the decimal
forms `[+-]? digits [. digits] [eE [+-] digits]` (with a digit required in
the mantissa).  Binary rounding of the resulting double, hexadecimal
floats, underscore-separated literals and the `Inf`/`NaN` spellings are
outside the inputs handled by this service and are modelled as parse
failures. -/
def parseGoFloat (s : Str) : Option ℚ :=
  let sgnRest : Int × Str :=
    match s with
    | '+' :: t => (1, t)
    | '-' :: t => (-1, t)
    | t => (1, t)
  let ipRest := takeDigits sgnRest.2
  let fpRest : Str × Str :=
    match ipRest.2 with
    | '.' :: t => takeDigits t
    | t => ([], t)
  if ipRest.1 = [] ∧ fpRest.1 = [] then none
  else
    let mant : Int := sgnRest.1 * (digitsToNat (ipRest.1 ++ fpRest.1) : Int)
    let fracLen : Int := (fpRest.1.length : Int)
    match fpRest.2 with
    | [] => some (qOfMantExp mant (-fracLen))
    | e :: t =>
      if e == 'e' || e == 'E' then
        let esgnRest : Int × Str :=
          match t with
          | '+' :: u => (1, u)
          | '-' :: u => (-1, u)
          | u => (1, u)
        let edsRest := takeDigits esgnRest.2
        if edsRest.1 = [] ∨ edsRest.2 ≠ [] then none
        else some (qOfMantExp mant (esgnRest.1 * (digitsToNat edsRest.1 : Int) - fracLen))
      else none

/-- Function `mustParseAmount` from `utils/ocr_parser.go`: strip commas, uppercase,
trim a trailing `CR`/`DR`, parse, and default to `0` on a parse error. -/
def mustParseAmount (s : Str) : ℚ :=
  let s1 := goToUpper (removeChar ',' s)
  let s2 := trimSuffixStr s1 (gs "CR")
  let s3 := trimSuffixStr s2 (gs "DR")
  (parseGoFloat (goTrimSpace s3)).getD 0

-- ===========================================================
-- Salary-slip field extractors (utils/ocr_parser.go)
-- ===========================================================

def monthNames : List Str :=
  [gs "January", gs "February", gs "March", gs "April", gs "May", gs "June",
   gs "July", gs "August", gs "September", gs "October", gs "November", gs "December",
   gs "Jan", gs "Feb", gs "Mar", gs "Apr", gs "May", gs "Jun", gs "Jul", gs "Aug",
   gs "Sep", gs "Oct", gs "Nov", gs "Dec"]

/-- Pattern `(?i)<month>[\s\-,]*(\d{4})` -/
def monthYearRE (month : Str) : RE :=
  reCat [.lit month true, .rep (fun c => reWS c || c == '-' || c == ',') 0 none,
         .grp 1 (.rep isDigitC 4 (some 4))]

/-- Pattern `(\d{1,2})[ / - ](\d{4})` -/
def dateMYRE : RE :=
  reCat [.grp 1 (.rep isDigitC 1 (some 2)), .rep (fun c => c == '/' || c == '-') 1 (some 1),
         .grp 2 (.rep isDigitC 4 (some 4))]

/-- Function `extractMonth`: first month name (in list order) contained in the text,
with a following 4-digit year when present; otherwise an `MM/YYYY` or
`MM-YYYY` date; otherwise the sentinel `"Unknown"`. -/
def extractMonth (text : Str) : Str :=
  let tl := goToLower text
  match monthNames.find? (fun m => goContains tl (goToLower m)) with
  | some month =>
    match reFind (monthYearRE month) text with
    | some (caps, _) =>
      match capGet caps 1 with
      | some y => month ++ [' '] ++ y
      | none => month
    | none => month
  | none =>
    match reFind dateMYRE text with
    | some (caps, _) =>
      match capGet caps 1, capGet caps 2 with
      | some mm, some yy => mm ++ ['/'] ++ yy
      | _, _ => gs "Unknown"
    | none => gs "Unknown"

/-- Pattern `([0-9,]+\.?\d*)` -/
def amountGrp : RE :=
  .grp 1 (reCat [.rep (fun c => c.isDigit || c == ',') 1 none,
                 .opt (.lit (gs ".") false), .rep isDigitC 0 none])

/-- Pattern `(?:Rs\.?|INR|₹)?` -/
def currencyOpt : RE :=
  .opt (reAlts [.cat (.lit (gs "Rs") true) (.opt (.lit (gs ".") false)),
                .lit (gs "INR") true, .lit (gs "₹") true])

/-- Pattern `(?i)net\s*(?:pay|salary|amount|payment)[\s:]*(?:Rs\.?|INR|₹)?\s*([0-9,]+\.?\d*)` -/
def salaryRE1 : RE :=
  reCat [.lit (gs "net") true, wsStar,
         reAlts [.lit (gs "pay") true, .lit (gs "salary") true,
                 .lit (gs "amount") true, .lit (gs "payment") true],
         wsColonStar, currencyOpt, wsStar, amountGrp]

/-- Pattern `(?i)total\s*(?:pay|salary|amount)[\s:]*(?:Rs\.?|INR|₹)?\s*([0-9,]+\.?\d*)` -/
def salaryRE2 : RE :=
  reCat [.lit (gs "total") true, wsStar,
         reAlts [.lit (gs "pay") true, .lit (gs "salary") true, .lit (gs "amount") true],
         wsColonStar, currencyOpt, wsStar, amountGrp]

/-- Pattern `(?i)salary[\s:]*(?:Rs\.?|INR|₹)?\s*([0-9,]+\.?\d*)` -/
def salaryRE3 : RE :=
  reCat [.lit (gs "salary") true, wsColonStar, currencyOpt, wsStar, amountGrp]

/-- Pattern `(?i)gross\s*(?:pay|salary)[\s:]*(?:Rs\.?|INR|₹)?\s*([0-9,]+\.?\d*)` -/
def salaryRE4 : RE :=
  reCat [.lit (gs "gross") true, wsStar,
         reAlts [.lit (gs "pay") true, .lit (gs "salary") true],
         wsColonStar, currencyOpt, wsStar, amountGrp]

/-- The pattern loop of `extractSalaryAmount`: first pattern that matches
and whose captured amount (commas removed) parses as a float wins. -/
def extractSalaryAmountGo : List RE → Str → ℚ
  | [], _ => 0
  | r :: rs, text =>
    match reFind r text with
    | some (caps, _) =>
      match capGet caps 1 with
      | some a =>
        match parseGoFloat (removeChar ',' a) with
        | some v => v
        | none => extractSalaryAmountGo rs text
      | none => extractSalaryAmountGo rs text
    | none => extractSalaryAmountGo rs text

def extractSalaryAmount (text : Str) : ℚ :=
  extractSalaryAmountGo [salaryRE1, salaryRE2, salaryRE3, salaryRE4] text

-- Account-number extraction --------------------------------------------

/-- The pre-cleaning in `extractAccountNumber`: em-dash to dash, colon to
space, lowercase. -/
def cleanedForAccount (text : Str) : Str :=
  goToLower (replaceChar ':' ' ' (replaceChar '—' '-' text))

/-- Pattern `([0-9]{9,18})` -/
def acctGrp : RE := .grp 1 (.rep isDigitC 9 (some 18))

def acctRE1 : RE := reCat [.lit (gs "account") false, wsStar, .lit (gs "no") false, wsDashStar, acctGrp]
def acctRE2 : RE := reCat [.lit (gs "accountnumber") false, wsDashStar, acctGrp]
def acctRE3 : RE := reCat [.lit (gs "a/c") false, wsStar, .lit (gs "no") false, wsDashStar, acctGrp]
def acctRE4 : RE := reCat [.lit (gs "ac") false, wsStar, .lit (gs "no") false, wsDashStar, acctGrp]
def acctRE5 : RE := reCat [.lit (gs "acc") false, wsStar, .lit (gs "no") false, wsDashStar, acctGrp]

/-- Pattern `x{4,}[0-9]{3,6}` -/
def maskedRE : RE := reCat [.rep (fun c => c == 'x') 4 none, .rep isDigitC 3 (some 6)]

/-- Pattern `[0-9]+` -/
def digitsRunRE : RE := .rep isDigitC 1 none

/-- First of the explicit label patterns that matches, returning its capture. -/
def firstAcctPattern : List RE → Str → Option Str
  | [], _ => none
  | r :: rs, s =>
    match reFind r s with
    | some (caps, _) =>
      match capGet caps 1 with
      | some d => some d
      | none => firstAcctPattern rs s
    | none => firstAcctPattern rs s

def acctFallbackOk (cleaned : Str) (c : Str) : Bool :=
  decide (10 ≤ utf8Len c) &&
  !goContains cleaned (gs "cust id " ++ c) &&
  !goContains cleaned (gs "customer id " ++ c) &&
  !goContains cleaned (gs "cif " ++ c)

/-- Function `extractAccountNumber` from `utils/ocr_parser.go`. -/
def extractAccountNumber (text : Str) : Str :=
  let cleaned := cleanedForAccount text
  match firstAcctPattern [acctRE1, acctRE2, acctRE3, acctRE4, acctRE5] cleaned with
  | some d => d
  | none =>
    match reFind maskedRE cleaned with
    | some (caps, _) =>
      let m := (capGet caps 0).getD []
      ((reFind digitsRunRE m).bind (fun pr => capGet pr.1 0)).getD []
    | none =>
      let cands := reFindAll (.grp 1 (.rep isDigitC 9 (some 18))) cleaned
      (cands.find? (acctFallbackOk cleaned)).getD []

-- Employee / account-holder names --------------------------------------

/-- Pattern `(?i)name\s*:\s*([A-Za-z ]+)` -/
def nameAfterLabelRE : RE :=
  reCat [.lit (gs "name") true, wsStar, .lit (gs ":") false, wsStar,
         .grp 1 (.rep (fun c => c.isAlpha || c == ' ') 1 none)]

def extractNameAfterLabel (line : Str) : Str :=
  match reFind nameAfterLabelRE line with
  | some (caps, _) =>
    match capGet caps 1 with
    | some m1 => goTrimSpace m1
    | none => []
  | none => []

def stopWords1 : List Str :=
  [gs "opening", gs "state", gs "branch", gs "bank", gs "acc", gs "account", gs "salary"]

def cleanNameAux : List Str → List Str → List Str
  | [], out => out
  | p :: ps, out =>
    if stopWords1.contains (goToLower p) then out
    else
      let out2 := out ++ [p]
      if out2.length == 2 then out2 else cleanNameAux ps out2

/-- Function `cleanName`: keep at most the first two words, stopping at a stop word. -/
def cleanName (s : Str) : Str :=
  if s = [] then s else goJoin (gs " ") (cleanNameAux (goFields s) [])

/-- Pattern `^[A-Za-z]+$` as a whole-string match. -/
def isAllAlpha (s : Str) : Bool := !s.isEmpty && s.all Char.isAlpha

/-- Function `isCleanName`: exactly two purely-alphabetic words. -/
def isCleanName (s : Str) : Bool :=
  let parts := goFields s
  parts.length == 2 && parts.all isAllAlpha

/-- The line loop of `extractEmployeeName`; `prev` is the previous raw line. -/
def extractEmployeeNameAux : Option Str → List Str → Str
  | _, [] => []
  | prev, line :: rest =>
    if goContains (goToLower line) (gs "name") && goContains line (gs ":") then
      let prevCand : Option Str := prev.map (fun pl => cleanName (goTrimSpace pl))
      match prevCand with
      | some cand =>
        if isCleanName cand then cand
        else
          let nm := cleanName (extractNameAfterLabel line)
          if isCleanName nm then nm else extractEmployeeNameAux (some line) rest
      | none =>
        let nm := cleanName (extractNameAfterLabel line)
        if isCleanName nm then nm else extractEmployeeNameAux (some line) rest
    else extractEmployeeNameAux (some line) rest

def extractEmployeeName (text : Str) : Str :=
  extractEmployeeNameAux none (goSplitChar '\n' text)

def employerKeys : List Str :=
  [gs "PVT", gs "PRIVATE", gs "LTD", gs "LIMITED", gs "LLP",
   gs "TECHNOLOGY", gs "TECH", gs "SOLUTIONS"]

def extractEmployerNameAux : List Str → Str
  | [] => []
  | l :: rest =>
    let lt := goTrimSpace l
    if lt = [] then extractEmployerNameAux rest
    else
      let upper := goToUpper lt
      if employerKeys.any (fun k => goContains upper k) then goTrimSet (gs "-:•* ") lt
      else extractEmployerNameAux rest

/-- Function `extractEmployerName`: scan the first 6 lines for a corporate-suffix
keyword. -/
def extractEmployerName (text : Str) : Str :=
  extractEmployerNameAux ((goSplitChar '\n' text).take 6)

/-- Function `ParseSalarySlip` from `utils/ocr_parser.go`. -/
def parseSalarySlip (ocrText : Str) : SalarySlipData :=
  { payMonth := extractMonth ocrText
    netSalary := extractSalaryAmount ocrText
    accountNumber := extractAccountNumber ocrText
    employeeName := extractEmployeeName ocrText
    employerName := extractEmployerName ocrText }

-- ===========================================================
-- Bank-statement parsing (utils/ocr_parser.go, normalizeLines from
-- utils/aadhaar_parser.go, same package)
-- ===========================================================

/-- Function `validName`: Go byte length strictly between 2 and 50. -/
def validName (n : Str) : Bool := decide (2 < utf8Len n) && decide (utf8Len n < 50)

/-- Pattern `([A-Z][A-Za-z\s\.]+)` under `(?i)` (the classes case-fold). -/
def holderGrp : RE :=
  .grp 1 (reCat [.rep isAlphaC 1 (some 1),
                 .rep (fun c => c.isAlpha || reWS c || c == '.') 1 none])

def holderRE1 : RE :=
  reCat [.lit (gs "account") true, wsStar, .lit (gs "holder") true, wsColonStar, holderGrp]
def holderRE2 : RE :=
  reCat [.lit (gs "customer") true, wsStar, .lit (gs "name") true, wsColonStar, holderGrp]
def holderRE3 : RE := reCat [.lit (gs "name") true, wsColonStar, holderGrp]

/-- Pattern `(?m)(?i)\b(MR|MRS|MS|SHRI|SMT)\.?\s+[A-Z][A-Z\s]{2,50}` (the leading
`\b` is enforced by `reFindWB`; under `(?i)` the classes case-fold). -/
def honorificRE : RE :=
  reCat [.grp 1 (reAlts [.lit (gs "MR") true, .lit (gs "MRS") true, .lit (gs "MS") true,
                         .lit (gs "SHRI") true, .lit (gs "SMT") true]),
         .opt (.lit (gs ".") false), .rep reWS 1 none,
         .rep isAlphaC 1 (some 1), .rep (fun c => c.isAlpha || reWS c) 2 (some 50)]

def holderPatternLoop : List RE → Str → Option Str
  | [], _ => none
  | r :: rs, text =>
    match reFind r text with
    | some (caps, _) =>
      match capGet caps 1 with
      | some m1 =>
        let n := cleanName m1
        if validName n then some n else holderPatternLoop rs text
      | none => holderPatternLoop rs text
    | none => holderPatternLoop rs text

/-- Function `extractAccountHolderName` from `utils/ocr_parser.go`. -/
def extractAccountHolderName (text : Str) : Str :=
  match holderPatternLoop [holderRE1, holderRE2, holderRE3] text with
  | some n => n
  | none =>
    match reFindWB honorificRE text with
    | some (caps, _) =>
      let m := (capGet caps 0).getD []
      let parts := goFields m
      if 2 ≤ parts.length then
        let n := cleanName (goJoin (gs " ") parts.tail)
        if validName n then n else []
      else []
    | none => []

/-- Function `normalizeLines` (drop `\r`, split on `\n`, trim, drop empties). -/
def normalizeLines (text : Str) : List Str :=
  ((goSplitChar '\n' (removeChar '\r' text)).map goTrimSpace).filter (fun l => !l.isEmpty)

-- Date parsing ----------------------------------------------------------

def parse2 : Str → Option (Nat × Str)
  | a :: b :: t => if a.isDigit && b.isDigit then some (digitVal a * 10 + digitVal b, t) else none
  | _ => none

def parse4 : Str → Option (Nat × Str)
  | a :: b :: c :: d :: t =>
    if a.isDigit && b.isDigit && c.isDigit && d.isDigit then
      some (((digitVal a * 10 + digitVal b) * 10 + digitVal c) * 10 + digitVal d, t)
    else none
  | _ => none

def isLeapYear (y : Nat) : Bool := (y % 4 == 0 && y % 100 != 0) || y % 400 == 0

def daysIn (y m : Nat) : Nat :=
  match m with
  | 1 => 31 | 2 => if isLeapYear y then 29 else 28 | 3 => 31 | 4 => 30
  | 5 => 31 | 6 => 30 | 7 => 31 | 8 => 31 | 9 => 30 | 10 => 31
  | 11 => 30 | 12 => 31 | _ => 0

def mkDateChecked (y m d : Nat) : GoDate :=
  if 1 ≤ m ∧ m ≤ 12 ∧ 1 ≤ d ∧ d ≤ daysIn y m then some (y, m, d) else none

/-- Two-digit-year rule of Go: 69–99 → 19xx, 00–68 → 20xx. -/
def fixTwoDigitYear (y : Nat) : Nat := if 69 ≤ y then 1900 + y else 2000 + y

/-- Function `time.Parse` against one of the layouts `02<sep>01<sep>2006` (`long`)
or `02<sep>01<sep>06`: fixed-width fields, full consumption, range checks. -/
def parseDateFormat (sep : Char) (long : Bool) (s : Str) : GoDate :=
  match parse2 s with
  | none => none
  | some (d, r1) =>
    match r1 with
    | [] => none
    | c :: r2 =>
      if c == sep then
        match parse2 r2 with
        | none => none
        | some (m, r3) =>
          match r3 with
          | [] => none
          | c2 :: r4 =>
            if c2 == sep then
              match (if long then parse4 r4
                     else (parse2 r4).map (fun yr => (fixTwoDigitYear yr.1, yr.2))) with
              | none => none
              | some (y, r5) => if r5 = [] then mkDateChecked y m d else none
            else none
      else none

/-- Function `parseDateSmart`: layouts `02/01/2006`, `02/01/06`, `02-01-2006`,
`02-01-06` in order; `none` models the zero `time.Time` of a failed parse. -/
def parseDateSmart (s : Str) : GoDate :=
  match parseDateFormat '/' true s with
  | some d => some d
  | none =>
    match parseDateFormat '/' false s with
    | some d => some d
    | none =>
      match parseDateFormat '-' true s with
      | some d => some d
      | none => parseDateFormat '-' false s

-- Transaction parsing ---------------------------------------------------

/-- Pattern `[ / - ]` -/
def slashDash : RE := .rep (fun c => c == '/' || c == '-') 1 (some 1)

/-- Pattern `\d{1,2}[ / - ]\d{1,2}[ / - ]\d{2,4}` -/
def txnDateCore : RE :=
  reCat [.rep isDigitC 1 (some 2), slashDash, .rep isDigitC 1 (some 2), slashDash,
         .rep isDigitC 2 (some 4)]

/-- Pattern `^\s*(\d{1,2}[ / - ]\d{1,2}[ / - ]\d{2,4})` (anchored). -/
def tabularDateRE : RE := reCat [.rep reWS 0 none, .grp 1 txnDateCore]

/-- Pattern `[0-9,]+\.\d{2}` -/
def looseAmountRE : RE :=
  reCat [.rep (fun c => c.isDigit || c == ',') 1 none, .lit (gs ".") false,
         .rep isDigitC 2 (some 2)]

/-- Function `strings.Replace(s, pat, "", 1)`: drop the first occurrence. -/
def removeFirstOcc : Str → Str → Str
  | s, pat =>
    if goStartsWith s pat then s.drop pat.length
    else
      match s with
      | [] => []
      | c :: t => c :: removeFirstOcc t pat

def tabularLine (line : Str) : Option BankTransaction :=
  if (reFindAt tabularDateRE line).isSome then
    let parts := goFields line
    if parts.length < 3 then none
    else
      let dateStr := (parts.head?).getD []
      let amountStr := (parts.getLast?).getD []
      let amount := mustParseAmount amountStr
      if amount = 0 then none
      else
        let desc := goJoin (gs " ") (parts.drop 1).dropLast
        let date := parseDateSmart dateStr
        let up := goToUpper (desc ++ [' '] ++ amountStr)
        let isCr := goContains up (gs "CR") || goContains up (gs "CREDIT") ||
          goContains up (gs "NEFT") || goContains up (gs "UPI") || goContains up (gs "SALARY")
        some { date := date, amount := amount, description := desc, isCredit := isCr }
  else none

/-- Function `parseTabularTransactions`: keep every line that starts with a date and
has ≥ 3 fields and a nonzero trailing amount. -/
def parseTabularTransactions (lines : List Str) : List BankTransaction :=
  lines.filterMap tabularLine

def looseLine (line : Str) : Option BankTransaction :=
  match reFind txnDateCore line with
  | none => none
  | some (dcaps, _) =>
    let d := (capGet dcaps 0).getD []
    let amounts := reFindAll looseAmountRE line
    match amounts.getLast? with
    | none => none
    | some lastAmt =>
      let amount := mustParseAmount lastAmt
      if amount = 0 then none
      else
        let desc := goTrimSpace (removeFirstOcc line lastAmt)
        let date := parseDateSmart d
        let up := goToUpper desc
        let isCr := goContains up (gs "CR") || goContains up (gs "CREDIT") ||
          goContains up (gs "SAL") || goContains up (gs "NEFT")
        some { date := date, amount := amount, description := desc, isCredit := isCr }

def parseLooseTransactions (lines : List Str) : List BankTransaction :=
  lines.filterMap looseLine

/-- Function `parseBankTransactions`: tabular parse, falling back to the loose parse
when it yields nothing. -/
def parseBankTransactions (lines : List Str) : List BankTransaction :=
  let tx := parseTabularTransactions lines
  if tx.length > 0 then tx else parseLooseTransactions lines

/-- Function `ParseBankStatement` from `utils/ocr_parser.go`. -/
def parseBankStatement (text : Str) : BankStatementData :=
  { accountNumber := extractAccountNumber text
    accountHolderName := extractAccountHolderName text
    transactions := parseBankTransactions (normalizeLines text) }

-- ===========================================================
-- Name comparison helpers (utils/ocr_parser.go)
-- ===========================================================

/-- Function `NormalizeString`: lowercase, delete spaces, delete periods. -/
def normalizeString (s : Str) : Str :=
  removeChar '.' (removeChar ' ' (goToLower s))

/-- The word-matching loop of `CompareNames`: for each word of `wa`, count it
if it is contained in (or contains) some word of `wb`. -/
def wordMatchCount (wa wb : List Str) : Nat :=
  wa.countP (fun x => wb.any (fun y => goContains y x || goContains x y))

/-- Function `CompareNames` from `utils/ocr_parser.go`.  The final Go comparison
`float64(match)/float64(len(wa)) >= 0.5` is modelled in ℚ; for `len(wa) = 0`
Go produces `NaN >= 0.5 = false` and the ℚ convention `0/0 = 0` gives
`false` as well. -/
def compareNames (a b : Str) : Bool :=
  if a = [] ∨ b = [] then false
  else
    let a2 := normalizeString a
    let b2 := normalizeString b
    if a2 = b2 then true
    else if goContains a2 b2 || goContains b2 a2 then true
    else
      let wa := goFields (goToLower a)
      let wb := goFields (goToLower b)
      let p := if wa.length > wb.length then (wb, wa) else (wa, wb)
      decide ((1 : ℚ)/2 ≤ (wordMatchCount p.1 p.2 : ℚ) / (p.1.length : ℚ))

-- ===========================================================
-- fmt "%.2f" formatting (used by the messages of CrossCheck)
-- ===========================================================

/-- Round to the nearest integer, ties to even (the rounding used when Go
formats a float with `%.2f`; the amounts in the claims are tie-free). -/
def roundTiesEven (q : ℚ) : ℤ :=
  let f := Int.floor q
  let r := q - (f : ℚ)
  if r < 1/2 then f
  else if (1 : ℚ)/2 < r then f + 1
  else if f % 2 = 0 then f else f + 1

def natDigits (n : Nat) : Str := (Nat.repr n).toList

/-- Function `fmt.Sprintf("%.2f", q)`. -/
def formatQ2 (q : ℚ) : Str :=
  let sign : Str := if q < 0 then ['-'] else []
  let n := (roundTiesEven (|q| * 100)).toNat
  sign ++ natDigits (n / 100) ++ ['.'] ++
    (if n % 100 < 10 then '0' :: natDigits (n % 100) else natDigits (n % 100))

-- ===========================================================
-- CrossCheck (service/income_service.go)
-- ===========================================================

/-- The `fmt.Sprintf("Missing credit for %s: %.2f", slip.PayMonth, slip.NetSalary)`
message. -/
def missingCreditMsg (sl : SalarySlipData) : Str :=
  gs "Missing credit for " ++ sl.payMonth ++ gs ": " ++ formatQ2 sl.netSalary

/-- The inner transaction-search loop of `CrossCheck`: is there a credit
transaction whose amount equals the net salary of the slip? -/
def hasMatchingCredit (txs : List BankTransaction) (sl : SalarySlipData) : Bool :=
  txs.any (fun tx => tx.isCredit && decide (tx.amount = sl.netSalary))

/-- The salary-credit loop of `CrossCheck`, accumulating messages in slip
order. -/
def missingSalaryCreditsOf (txs : List BankTransaction) : List SalarySlipData → List Str
  | [] => []
  | sl :: rest =>
    if 0 < sl.netSalary then
      if hasMatchingCredit txs sl then missingSalaryCreditsOf txs rest
      else missingCreditMsg sl :: missingSalaryCreditsOf txs rest
    else missingSalaryCreditsOf txs rest

/-- Function `CrossCheck` from `service/income_service.go`.  The first-match-and-break
loops over `slips` are modelled with `List.any`. -/
def crossCheck (slips : List SalarySlipData) (stmts : List BankStatementData) :
    CrossCheckResult :=
  match stmts with
  | [] => { notes := [gs "No bank statements provided for cross-check"] }
  | stmt :: _ =>
    let nameM := slips.any (fun sl => compareNames sl.employeeName stmt.accountHolderName)
    let acctM := slips.any (fun sl =>
      !(sl.accountNumber == ([] : Str)) && !(stmt.accountNumber == ([] : Str)) &&
      removeChar ' ' sl.accountNumber == removeChar ' ' stmt.accountNumber)
    { nameMatch := nameM
      nameSimilarity := if nameM then 1 else 0
      accountMatch := acctM
      missingSalaryCredits := missingSalaryCreditsOf stmt.transactions slips
      notes := [] }


-- ===========================================================
-- ProcessDocument (service/income_service.go)
-- ===========================================================

structure DocumentMeta where
  filename : Str
  docType : Str
  password : Str := []
deriving Repr, DecidableEq

/-- Outcome of the external OCR engines on one rasterized page of a
scanned PDF (the per-page environment of the OCR loop). -/
structure PageOcrEnv where
  saveTempOk : Bool := true
  paddleText : Str := []
  paddleErr : Bool := false
  tessText : Str := []
  tessConf : ℚ := 0
  tessErr : Bool := false
deriving Repr, DecidableEq

/-- Environment describing the outcomes of the external collaborators
(PDF processor, PaddleOCR, Tesseract) for one document. -/
structure ProcessEnv where
  pdfText : Str := []
  pdfTextErr : Bool := false
  pdfImagesErr : Bool := false
  pdfImages : List PageOcrEnv := []
  paddleBytesText : Str := []
  paddleBytesErr : Bool := false
  tessFileText : Str := []
  tessFileConf : ℚ := 0
  tessFileErr : Bool := false
deriving Repr, DecidableEq

inductive ProcResult where
  | salary (d : SalarySlipData)
  | bank (d : BankStatementData)
deriving Repr, DecidableEq

/-- Which external channels a `ProcessDocument` run invoked:
`ExtractImages` (page rasterization) and the OCR engines. -/
structure Trace where
  extractImagesCalled : Bool := false
  ocrCalled : Bool := false
deriving Repr, DecidableEq

/-- One iteration of the per-page OCR loop: PaddleOCR first, Tesseract
when Paddle errs or yields fewer than 10 bytes; `none` when the page is
skipped (temp-file failure or both engines err). -/
def ocrPage (pg : PageOcrEnv) : Option (Str × ℚ) :=
  if !pg.saveTempOk then none
  else
    if pg.paddleErr || decide (utf8Len (goTrimSpace pg.paddleText) < 10) then
      if pg.tessErr then none else some (pg.tessText, pg.tessConf)
    else some (pg.paddleText, 75)

/-- The OCR loop over all pages: concatenated text (with page-break
newlines), total confidence, page count. -/
def ocrPages : List PageOcrEnv → Str × ℚ × Nat
  | [] => ([], 0, 0)
  | pg :: rest =>
    match ocrPage pg with
    | none => ocrPages rest
    | some tc =>
      let acc := ocrPages rest
      (tc.1 ++ ['\n'] ++ acc.1, tc.2 + acc.2.1, acc.2.2 + 1)

/-- The final dispatch of `ProcessDocument` on the declared document type. -/
def parseByType (meta : DocumentMeta) (text : Str) (q : DocumentQuality) :
    Except Str ProcResult :=
  if meta.docType = gs "salary_slip" then
    .ok (.salary { parseSalarySlip text with quality := q })
  else if meta.docType = gs "bank_statement" then
    .ok (.bank { parseBankStatement text with quality := q })
  else .error (gs "unknown document type: " ++ meta.docType)

/-- The non-PDF Tesseract fallback of `ProcessDocument`. -/
def tesseractBranch (env : ProcessEnv) (meta : DocumentMeta) :
    Trace × Except Str ProcResult :=
  if env.tessFileErr then ({ ocrCalled := true }, .error (gs "image OCR failed"))
  else
    let final := (env.tessFileConf + 80) / 2
    let q : DocumentQuality :=
      { ocrConfidence := env.tessFileConf, resolutionScore := 80, finalScore := final
        issues := if final < 60 then [gs "low_quality_document"] else [] }
    ({ ocrCalled := true }, parseByType meta env.tessFileText q)

/-- Function `ProcessDocument` from `service/income_service.go`, instrumented with a
`Trace` recording which external channels ran.  PDF detection is by the
lowercased `.pdf` filename suffix; the text-layer threshold is 20 bytes of
trimmed text. -/
def processDocument (env : ProcessEnv) (meta : DocumentMeta) :
    Trace × Except Str ProcResult :=
  if goHasSuffixStr (goToLower meta.filename) (gs ".pdf") then
    let text0 := env.pdfText
    let issues0 : List Str := if env.pdfTextErr then [gs "pdf_text_extraction_failed"] else []
    if utf8Len (goTrimSpace text0) < 20 then
      if env.pdfImagesErr || env.pdfImages.isEmpty then
        ({ extractImagesCalled := true },
         parseByType meta text0 { issues := issues0 ++ [gs "pdf_image_extraction_failed"] })
      else
        let tr : Trace := { extractImagesCalled := true
                            ocrCalled := env.pdfImages.any (fun p => p.saveTempOk) }
        let acc := ocrPages env.pdfImages
        if 0 < acc.2.2 then
          let conf := acc.2.1 / (acc.2.2 : ℚ)
          let final := (conf + 80) / 2
          let q : DocumentQuality :=
            { ocrConfidence := conf, resolutionScore := 80, finalScore := final
              issues := issues0 ++ (if final < 60 then [gs "low_quality_document"] else []) }
          (tr, parseByType meta acc.1 q)
        else
          (tr, parseByType meta text0 { issues := issues0 ++ [gs "scanned_pdf_ocr_failed"] })
    else
      ({}, parseByType meta text0
        { ocrConfidence := 100, resolutionScore := 100, finalScore := 100, issues := issues0 })
  else
    if !env.paddleBytesErr && decide (5 < utf8Len (goTrimSpace env.paddleBytesText)) then
      let q : DocumentQuality :=
        { ocrConfidence := 75, resolutionScore := 80, finalScore := (75 + 80) / 2 }
      if meta.docType = gs "salary_slip" then
        ({ ocrCalled := true },
         .ok (.salary { parseSalarySlip env.paddleBytesText with quality := q }))
      else if meta.docType = gs "bank_statement" then
        ({ ocrCalled := true },
         .ok (.bank { parseBankStatement env.paddleBytesText with quality := q }))
      else tesseractBranch env meta
    else tesseractBranch env meta

-- ===========================================================
-- VerifyIncome (service/income_service.go)
-- ===========================================================

/-- One document job of a batch: its metadata entry, whether the declared
filename was found among the uploads, the outcomes of opening/reading the
upload, and the extraction environment. -/
structure DocumentJob where
  meta : DocumentMeta
  fileFound : Bool := true
  openErrMsg : Option Str := none
  readErrMsg : Option Str := none
  env : ProcessEnv := {}
deriving Repr, DecidableEq

/-- The outcome a goroutine records for one found job, with the error
wrapping of `VerifyIncome`. -/
def jobOutcome (j : DocumentJob) : Except Str ProcResult :=
  match j.openErrMsg with
  | some e => .error (gs "failed to open file " ++ j.meta.filename ++ gs ": " ++ e)
  | none =>
    match j.readErrMsg with
    | some e => .error (gs "failed to read file " ++ j.meta.filename ++ gs ": " ++ e)
    | none =>
      match (processDocument j.env j.meta).2 with
      | .error e => .error (gs "failed to process file " ++ j.meta.filename ++ gs ": " ++ e)
      | .ok r => .ok r

/-- The joined result of the per-document goroutines, sequentialized in
metadata order (the Go code joins all goroutines before reading the shared
collections; the append order under the mutex is scheduler-dependent, and
is modelled here as metadata order): error list, salary slips, bank
statements.  A job whose filename is not among the uploads is skipped. -/
def runJobs : List DocumentJob → List Str × List SalarySlipData × List BankStatementData
  | [] => ([], [], [])
  | j :: rest =>
    let acc := runJobs rest
    if !j.fileFound then acc
    else
      match jobOutcome j with
      | .error e => (e :: acc.1, acc.2.1, acc.2.2)
      | .ok (.salary d) => (acc.1, d :: acc.2.1, acc.2.2)
      | .ok (.bank d) => (acc.1, acc.2.1, d :: acc.2.2)

/-- The batch response (the wall-clock `ProcessedAt` field is omitted from
the model). -/
structure IncomeVerificationResponse where
  salarySlips : List SalarySlipData
  bankStatements : List BankStatementData
  crossCheckVerdict : CrossCheckResult
  minQualityScore : ℚ
deriving Repr, DecidableEq

/-- Environment of one `VerifyIncome` call: the metadata-unmarshal outcome
and the job list derived from the manifest. -/
structure VerifyEnv where
  metadataErr : Option Str := none
  jobs : List DocumentJob := []

/-- The error list collected by the goroutines of a batch. -/
def errorsOf (env : VerifyEnv) : List Str := (runJobs env.jobs).1

/-- Function `VerifyIncome` from `service/income_service.go`. -/
def verifyIncome (env : VerifyEnv) : Except Str IncomeVerificationResponse :=
  match env.metadataErr with
  | some e => .error (gs "invalid metadata JSON: " ++ e)
  | none =>
    let acc := runJobs env.jobs
    match acc.1 with
    | e :: _ => .error e
    | [] =>
      .ok { salarySlips := acc.2.1, bankStatements := acc.2.2
            crossCheckVerdict := crossCheck acc.2.1 acc.2.2
            minQualityScore := 60 }


-- ===========================================================
-- Substring characterization
-- ===========================================================

/-- Function `p` occurs as a contiguous substring of `s`. -/
def SpecSubstr (p s : Str) : Prop := ∃ l r, s = l ++ p ++ r

theorem goStartsWith_iff (s p : Str) : goStartsWith s p = true ↔ ∃ r, s = p ++ r := by
  induction p generalizing s with
  | nil => simp [goStartsWith]
  | cons d p ih =>
    cases s with
    | nil => simp [goStartsWith]
    | cons c t =>
      simp only [goStartsWith, Bool.and_eq_true, beq_iff_eq, ih, List.cons_append,
        List.cons.injEq]
      constructor
      · rintro ⟨rfl, r, rfl⟩
        exact ⟨r, rfl, rfl⟩
      · rintro ⟨r, rfl, rfl⟩
        exact ⟨rfl, r, rfl⟩

theorem goContains_iff (s p : Str) : goContains s p = true ↔ SpecSubstr p s := by
  induction s with
  | nil =>
    simp only [goContains, goStartsWith_iff, SpecSubstr]
    constructor
    · rintro ⟨r, hr⟩
      exact ⟨[], r, by simpa using hr⟩
    · rintro ⟨l, r, hl⟩
      refine ⟨r, ?_⟩
      have hl2 := hl.symm
      rw [List.append_assoc] at hl2
      rcases List.append_eq_nil.mp hl2 with ⟨rfl, h2⟩
      simpa using hl
  | cons c t ih =>
    simp only [goContains, Bool.or_eq_true, goStartsWith_iff, ih, SpecSubstr]
    constructor
    · rintro (⟨r, hr⟩ | ⟨l, r, hr⟩)
      · exact ⟨[], r, by simpa using hr⟩
      · exact ⟨c :: l, r, by simp [hr]⟩
    · rintro ⟨l, r, hr⟩
      cases l with
      | nil => exact Or.inl ⟨r, by simpa using hr⟩
      | cons x l =>
        right
        rw [List.cons_append, List.cons_append] at hr
        injection hr with h1 h2
        exact ⟨l, r, by simp [h2]⟩

instance (p s : Str) : Decidable (SpecSubstr p s) :=
  decidable_of_iff (goContains s p = true) (goContains_iff s p)

-- ===========================================================
-- CrossCheck characterizations (shared by the claims below)
-- ===========================================================

theorem hasMatchingCredit_iff (txs : List BankTransaction) (sl : SalarySlipData) :
    hasMatchingCredit txs sl = true ↔
      ∃ tx ∈ txs, tx.isCredit = true ∧ tx.amount = sl.netSalary := by
  simp [hasMatchingCredit, List.any_eq_true, Bool.and_eq_true]

theorem missingSalaryCreditsOf_eq (txs : List BankTransaction)
    (slips : List SalarySlipData) :
    missingSalaryCreditsOf txs slips =
      (slips.filter (fun sl => decide (0 < sl.netSalary) && !hasMatchingCredit txs sl)).map
        missingCreditMsg := by
  induction slips with
  | nil => rfl
  | cons sl rest ih =>
    by_cases h1 : 0 < sl.netSalary
    · by_cases h2 : hasMatchingCredit txs sl = true
      · simp [missingSalaryCreditsOf, h1, h2, ih, List.filter_cons]
      · simp [missingSalaryCreditsOf, h1, h2, ih, List.filter_cons,
          Bool.not_eq_true _ ▸ (Bool.eq_false_iff.mpr h2)]
    · simp [missingSalaryCreditsOf, h1, ih, List.filter_cons]

theorem accountMatch_iff (slips : List SalarySlipData) (stmt : BankStatementData)
    (rest : List BankStatementData) :
    (crossCheck slips (stmt :: rest)).accountMatch = true ↔
      ∃ sl ∈ slips, sl.accountNumber ≠ [] ∧ stmt.accountNumber ≠ [] ∧
        removeChar ' ' sl.accountNumber = removeChar ' ' stmt.accountNumber := by
  simp [crossCheck, List.any_eq_true, Bool.and_eq_true, beq_iff_eq, and_assoc,
    Bool.not_eq_true', beq_eq_false_iff_ne]


-- ===========================================================
-- The fuzzy name-equivalence of the spec (for the refinement claim about
-- CompareNames); modelled from the words of the spec in section 4.4.
-- ===========================================================

/-- Some word of `ws` contains `w`, or is contained in `w` (the clause
"appear (as substring, either direction)"). -/
def SpecWordHit (w : Str) (ws : List Str) : Prop :=
  ∃ v ∈ ws, SpecSubstr w v ∨ SpecSubstr v w

instance (w : Str) (ws : List Str) : Decidable (SpecWordHit w ws) := by
  unfold SpecWordHit; infer_instance

/-- The word list of the name with fewer words (ties resolved as the code
does, to the first name). -/
def shorterWords (a b : Str) : List Str :=
  let wa := goFields (goToLower a)
  let wb := goFields (goToLower b)
  if wa.length > wb.length then wb else wa

/-- The word list of the other name. -/
def longerWords (a b : Str) : List Str :=
  let wa := goFields (goToLower a)
  let wb := goFields (goToLower b)
  if wa.length > wb.length then wa else wb

/-- Clause of the spec: at least 50 percent of the words of the shorter
name appear among the words of the longer name. -/
def SpecWordClause (a b : Str) : Prop :=
  (shorterWords a b).length ≤
    2 * (shorterWords a b).countP (fun w => decide (SpecWordHit w (longerWords a b)))

/-- Modelled from the spec (§4.4, name match): normalize both names
(lowercase, strip spaces and periods); equal → match; one a substring of
the other → match; otherwise at least half of the words of the shorter name must appear
(as substring, either direction) among the words of the longer name. -/
def SpecNameMatch (a b : Str) : Prop :=
  normalizeString a = normalizeString b ∨
  SpecSubstr (normalizeString a) (normalizeString b) ∨
  SpecSubstr (normalizeString b) (normalizeString a) ∨
  SpecWordClause a b

/-- Predicate `SpecNameMatch` with the word clause restricted to a
non-empty shorter word list (the amendment forced by the `0/0` comparison
in the code). -/
def SpecNameMatchAmended (a b : Str) : Prop :=
  normalizeString a = normalizeString b ∨
  SpecSubstr (normalizeString a) (normalizeString b) ∨
  SpecSubstr (normalizeString b) (normalizeString a) ∨
  (shorterWords a b ≠ [] ∧ SpecWordClause a b)

instance (a b : Str) : Decidable (SpecWordClause a b) := by
  unfold SpecWordClause; infer_instance

instance (a b : Str) : Decidable (SpecNameMatch a b) := by
  unfold SpecNameMatch; infer_instance

instance (a b : Str) : Decidable (SpecNameMatchAmended a b) := by
  unfold SpecNameMatchAmended; infer_instance

theorem anyHit_eq (w : Str) (lg : List Str) :
    lg.any (fun y => goContains y w || goContains w y) = decide (SpecWordHit w lg) := by
  cases hc : decide (SpecWordHit w lg) with
  | true =>
    obtain ⟨v, hv, hsub⟩ := of_decide_eq_true hc
    refine List.any_eq_true.mpr ⟨v, hv, ?_⟩
    simp only [Bool.or_eq_true]
    rcases hsub with h | h
    · exact Or.inl ((goContains_iff v w).mpr h)
    · exact Or.inr ((goContains_iff w v).mpr h)
  | false =>
    have hn := of_decide_eq_false hc
    refine List.any_eq_false.mpr ?_
    intro v hv hpv
    simp only [Bool.or_eq_true] at hpv
    rcases hpv with h | h
    · exact hn ⟨v, hv, Or.inl ((goContains_iff v w).mp h)⟩
    · exact hn ⟨v, hv, Or.inr ((goContains_iff w v).mp h)⟩

theorem wordMatchCount_eq_countP (sh lg : List Str) :
    wordMatchCount sh lg = sh.countP (fun w => decide (SpecWordHit w lg)) := by
  unfold wordMatchCount
  exact List.countP_congr (fun w _ => by rw [anyHit_eq w lg])

theorem ratio_ge_half_iff (m n : Nat) (hn : 0 < n) :
    ((1 : ℚ)/2 ≤ (m : ℚ) / (n : ℚ)) ↔ n ≤ 2 * m := by
  have hn2 : (0 : ℚ) < (n : ℚ) := by exact_mod_cast hn
  rw [div_le_div_iff₀ (by norm_num) hn2]
  constructor
  · intro h
    have h2 : (n : ℚ) ≤ 2 * (m : ℚ) := by linarith
    exact_mod_cast h2
  · intro h
    have h2 : (n : ℚ) ≤ 2 * (m : ℚ) := by exact_mod_cast h
    linarith

theorem ratio_clause_iff (sh lg : List Str) :
    decide ((1 : ℚ)/2 ≤ (wordMatchCount sh lg : ℚ) / (sh.length : ℚ)) = true ↔
      (sh ≠ [] ∧
        sh.length ≤ 2 * sh.countP (fun w => decide (SpecWordHit w lg))) := by
  rw [decide_eq_true_eq, wordMatchCount_eq_countP]
  cases sh with
  | nil =>
    simp
  | cons w ws =>
    rw [ratio_ge_half_iff _ _ (by simp)]
    simp


-- ===========================================================
-- Claim theorems
-- ===========================================================

/-- C1: `CompareNames` evaluated at the three examples of the spec.  The
two examples hold, but `CompareNames("John Doe", "Jane Doe")` evaluates to
`true` in the code (the shared word "doe" makes the word-match ratio
exactly 1/2, which meets the `>= 0.5` threshold), while the spec — and the
own test `TestCompareNames` of the repository — demand `false`. -/
theorem c1_compare_names_examples :
    compareNames (gs "John Doe") (gs "MR JOHN DOE") = true ∧
    compareNames (gs "John Doe") (gs "Doe John") = true ∧
    compareNames (gs "John Doe") (gs "Jane Doe") = true := by
  refine ⟨by decide, by decide, by decide⟩

theorem compareNames_iff_specAmended (a b : Str) (ha : a ≠ []) (hb : b ≠ []) :
    compareNames a b = true ↔ SpecNameMatchAmended a b := by
  have hcond : ¬(a = [] ∨ b = []) := by
    rintro (h | h)
    · exact ha h
    · exact hb h
  unfold compareNames SpecNameMatchAmended
  rw [if_neg hcond]
  dsimp only
  by_cases h1 : normalizeString a = normalizeString b
  · simp [h1]
  · rw [if_neg h1]
    by_cases h2 : (goContains (normalizeString a) (normalizeString b) ||
        goContains (normalizeString b) (normalizeString a)) = true
    · rw [if_pos h2]
      constructor
      · intro _
        simp only [Bool.or_eq_true] at h2
        rcases h2 with h | h
        · exact Or.inr (Or.inr (Or.inl ((goContains_iff _ _).mp h)))
        · exact Or.inr (Or.inl ((goContains_iff _ _).mp h))
      · intro _
        rfl
    · rw [if_neg h2]
      have hsplit : (let wa := goFields (goToLower a); let wb := goFields (goToLower b);
          let p := if wa.length > wb.length then (wb, wa) else (wa, wb);
          decide ((1 : ℚ)/2 ≤ (wordMatchCount p.1 p.2 : ℚ) / (p.1.length : ℚ))) =
          decide ((1 : ℚ)/2 ≤ (wordMatchCount (shorterWords a b) (longerWords a b) : ℚ) /
            ((shorterWords a b).length : ℚ)) := by
        dsimp only [shorterWords, longerWords]
        by_cases hlen : (goFields (goToLower a)).length > (goFields (goToLower b)).length
        · simp [hlen]
        · simp [hlen]
      rw [hsplit, ratio_clause_iff]
      have h2' := h2
      simp only [Bool.or_eq_true, goContains_iff, not_or] at h2'
      constructor
      · intro h
        exact Or.inr (Or.inr (Or.inr h))
      · rintro (h | h | h | h)
        · exact absurd h h1
        · exact absurd h h2'.2
        · exact absurd h h2'.1
        · exact h

/-- C3 counterexample: for the non-empty names `"\t"` and `"ab"` the
predicate of the spec holds (the shorter name tokenizes to zero words, so the
"≥ 50% of the words" requirement is vacuously satisfied) while
`CompareNames` returns `false` (the code computes `0/0 ≥ 0.5`, which is
false). -/
theorem c3_counterexample :
    gs "\t" ≠ [] ∧ gs "ab" ≠ [] ∧ SpecNameMatch (gs "\t") (gs "ab") ∧
      compareNames (gs "\t") (gs "ab") = false := by
  refine ⟨by decide, by decide, ?_, by decide⟩
  refine Or.inr (Or.inr (Or.inr ?_))
  decide

/-- C3 (amended): for non-empty names, `CompareNames` returns `true`
exactly when the normalized names are equal, or one is a substring of the
other, or the name with fewer words has at least one word and at least
50% of its words occur (by substring containment in either direction)
among the words of the other name. -/
theorem c3_compare_names_amended :
    ∀ a b : Str, a ≠ [] → b ≠ [] →
      (compareNames a b = true ↔ SpecNameMatchAmended a b) :=
  fun a b ha hb => compareNames_iff_specAmended a b ha hb

/-- Witness for C3 (amended) at the concrete names of the example in the spec. -/
theorem c3_compare_names_amended_witness :
    gs "John Doe" ≠ [] ∧ gs "MR JOHN DOE" ≠ [] ∧
      (compareNames (gs "John Doe") (gs "MR JOHN DOE") = true ↔
        SpecNameMatchAmended (gs "John Doe") (gs "MR JOHN DOE")) :=
  ⟨by decide, by decide,
    c3_compare_names_amended (gs "John Doe") (gs "MR JOHN DOE") (by decide) (by decide)⟩


-- Concrete cross-check inputs used by the claims below.

def sampleSlip50k : SalarySlipData := { payMonth := gs "October 2025", netSalary := 50000 }

def sampleStmtWithCredit (amt : ℚ) : BankStatementData :=
  { transactions := [{ amount := amt, isCredit := true }] }

/-- C2: for a non-empty statement list, the unmatched list of `CrossCheck`
contains exactly the positive-net-salary records without an exact credit
match in the first statement, each reported by pay-period label and
amount; with a matching 50000.00 credit the list is empty, and with a
40000.00 credit it has exactly one entry naming the pay period of the record. -/
theorem c2_missing_credit_characterization :
    (∀ (slips : List SalarySlipData) (stmt : BankStatementData)
        (rest : List BankStatementData),
      (crossCheck slips (stmt :: rest)).missingSalaryCredits =
        (slips.filter (fun sl =>
          decide (0 < sl.netSalary ∧
            ¬∃ tx ∈ stmt.transactions, tx.isCredit = true ∧
              tx.amount = sl.netSalary))).map missingCreditMsg) ∧
    (crossCheck [sampleSlip50k] [sampleStmtWithCredit 50000]).missingSalaryCredits = [] ∧
    (crossCheck [sampleSlip50k] [sampleStmtWithCredit 40000]).missingSalaryCredits =
      [gs "Missing credit for October 2025: 50000.00"] ∧
    goContains (gs "Missing credit for October 2025: 50000.00")
      sampleSlip50k.payMonth = true := by
  refine ⟨?_, by decide, by decide, by decide⟩
  intro slips stmt rest
  show missingSalaryCreditsOf stmt.transactions slips = _
  rw [missingSalaryCreditsOf_eq]
  congr 1
  apply List.filter_congr
  intro sl _
  have hiff : (decide (0 < sl.netSalary) && !hasMatchingCredit stmt.transactions sl) = true ↔
      (0 < sl.netSalary ∧
        ¬∃ tx ∈ stmt.transactions, tx.isCredit = true ∧ tx.amount = sl.netSalary) := by
    simp only [Bool.and_eq_true, decide_eq_true_eq, Bool.not_eq_true', Bool.eq_false_iff,
      ne_eq, hasMatchingCredit_iff]
  cases hp : (decide (0 < sl.netSalary) && !hasMatchingCredit stmt.transactions sl) with
  | true => exact (decide_eq_true (hiff.mp hp)).symm
  | false =>
    refine (decide_eq_false ?_).symm
    intro hP
    have hcontr := hiff.mpr hP
    rw [hp] at hcontr
    exact absurd hcontr Bool.false_ne_true

/-- C4 counterexample: with both account numbers empty (field not
recovered) the two numbers are equal after whitespace stripping, yet
`CrossCheck` does not set the account-match flag. -/
theorem c4_counterexample :
    removeChar ' ' (({} : SalarySlipData).accountNumber) =
      removeChar ' ' (({} : BankStatementData).accountNumber) ∧
    (crossCheck [({} : SalarySlipData)] [({} : BankStatementData)]).accountMatch = false := by
  refine ⟨rfl, by decide⟩

/-- C4 (amended): `CrossCheck` sets the account-match flag exactly when
the account number of some salary record and the account number of the first
statement are both non-empty and equal after removing space characters; in
particular "1234 567890" matches "1234567890", while "1234567890" does
not match "1234567891". -/
theorem c4_account_match_amended :
    (∀ (slips : List SalarySlipData) (stmt : BankStatementData)
        (rest : List BankStatementData),
      (crossCheck slips (stmt :: rest)).accountMatch = true ↔
        ∃ sl ∈ slips, sl.accountNumber ≠ [] ∧ stmt.accountNumber ≠ [] ∧
          removeChar ' ' sl.accountNumber = removeChar ' ' stmt.accountNumber) ∧
    (crossCheck [{ accountNumber := gs "1234 567890" }]
      [{ accountNumber := gs "1234567890" }]).accountMatch = true ∧
    (crossCheck [{ accountNumber := gs "1234567890" }]
      [{ accountNumber := gs "1234567891" }]).accountMatch = false :=
  ⟨accountMatch_iff, by decide, by decide⟩

/-- C10: the account-match flag stays `false` whenever the account number
of the statement is empty or the account number of every salary record is
empty,
even though two empty strings are equal after whitespace stripping. -/
theorem c10_account_match_needs_nonempty :
    ∀ (slips : List SalarySlipData) (stmt : BankStatementData)
      (rest : List BankStatementData),
      (stmt.accountNumber = [] ∨ ∀ sl ∈ slips, sl.accountNumber = []) →
      (crossCheck slips (stmt :: rest)).accountMatch = false := by
  intro slips stmt rest h
  cases hm : (crossCheck slips (stmt :: rest)).accountMatch with
  | false => rfl
  | true =>
    exfalso
    obtain ⟨sl, hsl, hne1, hne2, _⟩ := (accountMatch_iff slips stmt rest).mp hm
    rcases h with h | h
    · exact hne2 h
    · exact hne1 (h sl hsl)

/-- Witness for C10 at a concrete input with empty account numbers. -/
theorem c10_account_match_needs_nonempty_witness :
    (({} : BankStatementData).accountNumber = [] ∨
      ∀ sl ∈ [({} : SalarySlipData)], sl.accountNumber = []) ∧
    (crossCheck [({} : SalarySlipData)] [({} : BankStatementData)]).accountMatch = false :=
  ⟨Or.inl rfl,
    c10_account_match_needs_nonempty [({} : SalarySlipData)] {} [] (Or.inl rfl)⟩


def qualityOf : ProcResult → DocumentQuality
  | .salary d => d.quality
  | .bank d => d.quality

/-- C5: for a PDF whose text-layer extraction yields at least 20 bytes of
trimmed text, `ProcessDocument` never calls `ExtractImages`, runs no OCR
engine, and (for the two recognized document types) returns a record whose
quality scores are all 100. -/
theorem c5_text_layer_short_circuit :
    ∀ (env : ProcessEnv) (meta : DocumentMeta),
      goHasSuffixStr (goToLower meta.filename) (gs ".pdf") = true →
      20 ≤ utf8Len (goTrimSpace env.pdfText) →
      (processDocument env meta).1.extractImagesCalled = false ∧
      (processDocument env meta).1.ocrCalled = false ∧
      ((meta.docType = gs "salary_slip" ∨ meta.docType = gs "bank_statement") →
        ∃ r, (processDocument env meta).2 = Except.ok r ∧
          (qualityOf r).ocrConfidence = 100 ∧ (qualityOf r).resolutionScore = 100 ∧
          (qualityOf r).finalScore = 100) := by
  intro env meta hpdf hlen
  have hnl : ¬ (utf8Len (goTrimSpace env.pdfText) < 20) := Nat.not_lt.mpr hlen
  have hstep : processDocument env meta =
      ({}, parseByType meta env.pdfText
        { ocrConfidence := 100, resolutionScore := 100, finalScore := 100
          issues := if env.pdfTextErr then [gs "pdf_text_extraction_failed"] else [] }) := by
    unfold processDocument
    rw [if_pos hpdf, if_neg hnl]
  rw [hstep]
  refine ⟨rfl, rfl, ?_⟩
  rintro (hdt | hdt)
  · refine ⟨.salary { parseSalarySlip env.pdfText with quality :=
      { ocrConfidence := 100, resolutionScore := 100, finalScore := 100
        issues := if env.pdfTextErr then [gs "pdf_text_extraction_failed"] else [] } }, ?_, rfl, rfl, rfl⟩
    show parseByType meta env.pdfText _ = _
    unfold parseByType
    rw [if_pos hdt]
  · refine ⟨.bank { parseBankStatement env.pdfText with quality :=
      { ocrConfidence := 100, resolutionScore := 100, finalScore := 100
        issues := if env.pdfTextErr then [gs "pdf_text_extraction_failed"] else [] } }, ?_, rfl, rfl, rfl⟩
    show parseByType meta env.pdfText _ = _
    unfold parseByType
    have hne : ¬ (meta.docType = gs "salary_slip") := by
      rw [hdt]; decide
    rw [if_neg hne, if_pos hdt]

def c5SampleEnv : ProcessEnv := { pdfText := gs "This is a plain text PDF body." }

def c5SampleMeta : DocumentMeta := { filename := gs "doc.pdf", docType := gs "salary_slip" }

/-- Witness for C5 at a concrete environment and metadata. -/
theorem c5_text_layer_short_circuit_witness :
    goHasSuffixStr (goToLower c5SampleMeta.filename) (gs ".pdf") = true ∧
    20 ≤ utf8Len (goTrimSpace c5SampleEnv.pdfText) ∧
    ((processDocument c5SampleEnv c5SampleMeta).1.extractImagesCalled = false ∧
     (processDocument c5SampleEnv c5SampleMeta).1.ocrCalled = false ∧
     ((c5SampleMeta.docType = gs "salary_slip" ∨ c5SampleMeta.docType = gs "bank_statement") →
       ∃ r, (processDocument c5SampleEnv c5SampleMeta).2 = Except.ok r ∧
         (qualityOf r).ocrConfidence = 100 ∧ (qualityOf r).resolutionScore = 100 ∧
         (qualityOf r).finalScore = 100)) :=
  ⟨by decide, by decide,
    c5_text_layer_short_circuit c5SampleEnv c5SampleMeta (by decide) (by decide)⟩

theorem runJobs_errors_ne_nil :
    ∀ jobs : List DocumentJob,
      (∃ j ∈ jobs, j.fileFound = true ∧ ∃ e, jobOutcome j = Except.error e) →
      (runJobs jobs).1 ≠ [] := by
  intro jobs
  induction jobs with
  | nil =>
    rintro ⟨j, hj, _⟩
    cases hj
  | cons j rest ih =>
    rintro ⟨j2, hj2, hff, e, he⟩
    rcases List.mem_cons.mp hj2 with rfl | hmem
    · simp only [runJobs, hff, Bool.not_true, Bool.false_eq_true, if_false, he]
      exact List.cons_ne_nil _ _
    · have hrest := ih ⟨j2, hmem, hff, e, he⟩
      cases hf : j.fileFound with
      | false =>
        simpa only [runJobs, hf, Bool.not_false, if_true] using hrest
      | true =>
        simp only [runJobs, hf, Bool.not_true, Bool.false_eq_true, if_false]
        cases ho : jobOutcome j with
        | error e2 => exact List.cons_ne_nil _ _
        | ok r =>
          cases r with
          | salary d => exact hrest
          | bank d => exact hrest

/-- C6: when the metadata parses and some found document job fails (open,
read, or processing), `VerifyIncome` returns the first recorded error and
no response — the error result carries no salary-slip records, no
bank-statement records and no cross-check verdict. -/
theorem c6_first_error_aborts_batch :
    ∀ env : VerifyEnv, env.metadataErr = none →
      (∃ j ∈ env.jobs, j.fileFound = true ∧ ∃ e, jobOutcome j = Except.error e) →
      ∃ e rest, errorsOf env = e :: rest ∧ verifyIncome env = Except.error e := by
  intro env hmeta hfail
  have hne := runJobs_errors_ne_nil env.jobs hfail
  cases hl : (runJobs env.jobs).1 with
  | nil => exact absurd hl hne
  | cons e rest2 =>
    refine ⟨e, rest2, hl, ?_⟩
    unfold verifyIncome
    rw [hmeta]
    dsimp only
    rw [hl]

def c6FailingJob : DocumentJob :=
  { meta := { filename := gs "slip1.pdf", docType := gs "salary_slip" }
    openErrMsg := some (gs "permission denied") }

def c6SampleEnv : VerifyEnv := { jobs := [c6FailingJob] }

/-- Witness for C6: a batch with a single job whose file open fails. -/
theorem c6_first_error_aborts_batch_witness :
    c6SampleEnv.metadataErr = none ∧
    (∃ j ∈ c6SampleEnv.jobs, j.fileFound = true ∧ ∃ e, jobOutcome j = Except.error e) ∧
    ∃ e rest, errorsOf c6SampleEnv = e :: rest ∧ verifyIncome c6SampleEnv = Except.error e :=
  ⟨rfl, ⟨c6FailingJob, by simp [c6SampleEnv], rfl, _, rfl⟩,
    c6_first_error_aborts_batch c6SampleEnv rfl
      ⟨c6FailingJob, by simp [c6SampleEnv], rfl, _, rfl⟩⟩

/-- C7 counterexample: on input text with no month name and no numeric
date, the pay-month field of `ParseSalarySlip` is the sentinel `"Unknown"`,
not the empty string the claim demands. -/
theorem c7_counterexample :
    (parseSalarySlip (gs "")).payMonth ≠ [] ∧
    (parseSalarySlip (gs "")).payMonth = gs "Unknown" := by
  refine ⟨by decide, by decide⟩

/-- C7 (amended): extractors return empty/zero values and never an error
when nothing plausible is found — except the pay-month extractor, which
returns the sentinel `"Unknown"` for any text containing no month name
and no numeric month/year date; on empty input every other field of
`ParseSalarySlip` is empty/zero. -/
theorem c7_extractors_amended :
    (∀ t : Str,
      (∀ m ∈ monthNames, goContains (goToLower t) (goToLower m) = false) →
      reFind dateMYRE t = none →
      extractMonth t = gs "Unknown") ∧
    parseSalarySlip (gs "") =
      { payMonth := gs "Unknown", netSalary := 0, accountNumber := []
        employeeName := [], employerName := [] } := by
  constructor
  · intro t hm hd
    have hfind : monthNames.find? (fun m => goContains (goToLower t) (goToLower m)) = none :=
      List.find?_eq_none.mpr (fun m hmem => by simp [hm m hmem])
    unfold extractMonth
    dsimp only
    rw [hfind, hd]
  · decide

/-- Witness for C7 (amended) at the empty input. -/
theorem c7_extractors_amended_witness :
    (∀ m ∈ monthNames, goContains (goToLower (gs "")) (goToLower m) = false) ∧
    reFind dateMYRE (gs "") = none ∧ extractMonth (gs "") = gs "Unknown" :=
  ⟨by decide, by decide, c7_extractors_amended.1 (gs "") (by decide) (by decide)⟩

/-- C8: `mustParseAmount` strips comma separators, uppercases, trims a
trailing `CR`/`DR` marker, and returns 0 with no error whenever the
remaining token is not a well-formed number. -/
theorem c8_must_parse_amount :
    (∀ s : Str,
      parseGoFloat (goTrimSpace (trimSuffixStr (trimSuffixStr
        (goToUpper (removeChar ',' s)) (gs "CR")) (gs "DR"))) = none →
      mustParseAmount s = 0) ∧
    mustParseAmount (gs "50,000.00CR") = 50000 ∧
    mustParseAmount (gs "1,234.50DR") = (2469 : ℚ)/2 ∧
    mustParseAmount (gs "12abc") = 0 := by
  refine ⟨?_, by decide, by decide, by decide⟩
  intro s h
  unfold mustParseAmount
  dsimp only
  rw [h]
  rfl

/-- Witness for C8 at a malformed token. -/
theorem c8_must_parse_amount_witness :
    parseGoFloat (goTrimSpace (trimSuffixStr (trimSuffixStr
      (goToUpper (removeChar ',' (gs "ABC"))) (gs "CR")) (gs "DR"))) = none ∧
    mustParseAmount (gs "ABC") = 0 :=
  ⟨by decide, c8_must_parse_amount.1 (gs "ABC") (by decide)⟩

def c9SampleText : Str := gs "Pay Slip for October 2025\nNet Salary: Rs. 50,000.00"

/-- C9: on salary text containing the two spec lines, `ParseSalarySlip`
yields `NetSalary = 50000.00` and a pay month containing "October 2025". -/
theorem c9_salary_slip_extraction :
    goContains c9SampleText (gs "Pay Slip for October 2025") = true ∧
    goContains c9SampleText (gs "Net Salary: Rs. 50,000.00") = true ∧
    (parseSalarySlip c9SampleText).netSalary = 50000 ∧
    goContains (parseSalarySlip c9SampleText).payMonth (gs "October 2025") = true := by
  refine ⟨by decide, by decide, by decide, by decide⟩

end OcrIncome
